import Mathlib

/-!
Verification of the data-preparation and aggregation layer of the layoffs
dashboard (`streamlit.py`).  The pandas pipeline is shallowly embedded:
a dataframe is a `List Record`, a missing numeric cell is `none`,
`groupby(k)[v].sum()` groups over the distinct keys in ascending key order
(pandas `sort=True`), and `sort_values(ascending=False)` is modelled the way
pandas implements it: the reversal of a stable ascending argsort
(`nargsort` computes the ascending permutation and reverses it; the default
sort kind is stable on the small inputs at issue here).
-/

/-- A cell of the `Date` column: either the raw CSV string or the structured
date produced by `pd.to_datetime` (year, month, day). -/
inductive DateVal : Type where
  | raw (s : String)
  | parsed (y m d : Nat)
deriving DecidableEq, Repr

/-- Parse a `YYYY-MM-DD` string into its numeric components; model of the
date parsing performed by `pd.to_datetime` on the CSV strings. -/
def parseYMD (s : String) : Nat × Nat × Nat :=
  match (s.splitOn "-").map (fun t => t.toNat?.getD 0) with
  | [y, m, d] => (y, m, d)
  | _ => (0, 0, 0)

/-- `pd.to_datetime` applied to one cell: a raw string is parsed, an already
structured date is returned unchanged (pandas is the identity on a
datetime64 column). -/
def to_datetime (x : DateVal) : DateVal :=
  match x with
  | DateVal.raw s => DateVal.parsed (parseYMD s).1 (parseYMD s).2.1 (parseYMD s).2.2
  | DateVal.parsed y m d => DateVal.parsed y m d

/-- The year component, model of `.dt.year`. -/
def DateVal.year (x : DateVal) : Nat :=
  match x with
  | DateVal.raw s => (parseYMD s).1
  | DateVal.parsed y _ _ => y

/-- One row of the layoffs table.  Numeric columns that may be missing in
the CSV are `Option ℚ` (`none` = NaN). -/
structure Record : Type where
  Company : String
  Industry : String
  Country : String
  Location_HQ : String
  Stage : String
  Date : DateVal
  Laid_Off_Count : Option ℚ
  Funds_Raised : Option ℚ
  Percentage : Option ℚ
deriving DecidableEq, Repr

/-- `Series.mean()` with pandas NaN-skipping: the mean of the non-missing
entries, `none` when every entry is missing. -/
def colMean (xs : List (Option ℚ)) : Option ℚ :=
  let vs := xs.filterMap id
  if vs = [] then none else some (vs.sum / (vs.length : ℚ))

/-- The arithmetic mean of a list of values. -/
def meanOf (vs : List ℚ) : ℚ := vs.sum / (vs.length : ℚ)

/-- `Series.fillna(m)` on one cell: a present value is kept, a missing one is
replaced by `m` (and `fillna(NaN)` leaves NaN in place, hence the `Option`
on the fill value). -/
def fillnaWith (m : Option ℚ) (x : Option ℚ) : Option ℚ :=
  match x with
  | some v => some v
  | none => m

/-- Line 18: `df['Laid_Off_Count'].fillna(df['Laid_Off_Count'].mean(), inplace=True)`. -/
def fillLaidOff (df : List Record) : List Record :=
  df.map (fun r =>
    { r with Laid_Off_Count :=
        fillnaWith (colMean (df.map (fun t => t.Laid_Off_Count))) r.Laid_Off_Count })

/-- Line 19: `df['Funds_Raised'].fillna(df['Funds_Raised'].mean(), inplace=True)`. -/
def fillFunds (df : List Record) : List Record :=
  df.map (fun r =>
    { r with Funds_Raised :=
        fillnaWith (colMean (df.map (fun t => t.Funds_Raised))) r.Funds_Raised })

/-- Line 20: `df['Percentage'].fillna(df['Percentage'].mean(), inplace=True)`. -/
def fillPercentage (df : List Record) : List Record :=
  df.map (fun r =>
    { r with Percentage :=
        fillnaWith (colMean (df.map (fun t => t.Percentage))) r.Percentage })

/-- Lines 21 and 171: `df['Date'] = pd.to_datetime(df['Date'])`. -/
def parseDates (df : List Record) : List Record :=
  df.map (fun r => { r with Date := to_datetime r.Date })

/-- Line 24, one row: `.replace({'United States': 'United States of America'})`
rewrites exactly the cells equal to the literal key. -/
def replaceCountry (r : Record) : Record :=
  if r.Country = "United States" then { r with Country := "United States of America" } else r

/-- Line 24: `df['Country'] = df['Country'].replace({...})`. -/
def normalizeCountries (df : List Record) : List Record :=
  df.map replaceCountry

/-- Lines 16-26, `load_data`: mean-fill the three numeric columns, parse the
dates, normalize the country names. -/
def load_data (df : List Record) : List Record :=
  normalizeCountries (parseDates (fillPercentage (fillFunds (fillLaidOff df))))

/-- Line 44: the selectbox option list for the Country filter. -/
def country_options : List String := ["United States of America", "India"]

/-- Insert one element into a list, in front of the first entry `y` with
`le x y`; the insertion step of a stable insertion sort. -/
def insertSorted {α : Type} (le : α → α → Bool) (x : α) : List α → List α
  | [] => [x]
  | y :: ys => if le x y then x :: y :: ys else y :: insertSorted le x ys

/-- Stable insertion sort with respect to the boolean comparison `le`;
model of the (index-order preserving) ascending sorts inside pandas. -/
def isort {α : Type} (le : α → α → Bool) : List α → List α
  | [] => []
  | x :: xs => insertSorted le x (isort le xs)

/-- The distinct values of a list in order of first appearance, with an
accumulator of values already seen. -/
def distinctKeysAux {α : Type} [DecidableEq α] (seen : List α) : List α → List α
  | [] => []
  | k :: ks =>
    if k ∈ seen then distinctKeysAux seen ks
    else k :: distinctKeysAux (k :: seen) ks

/-- The distinct values of a list in order of first appearance. -/
def distinctKeys {α : Type} [DecidableEq α] (l : List α) : List α :=
  distinctKeysAux [] l

/-- Ascending comparison on strings (pandas sorts string group keys by the
standard lexicographic order). -/
def strLe (a b : String) : Bool := decide (a ≤ b)

/-- Ascending comparison on naturals (calendar years). -/
def natLe (a b : Nat) : Bool := decide (a ≤ b)

/-- Lexicographic comparison on string pairs, the groupby key order for
`groupby(['Company', 'Industry'])`. -/
def strPairLe (p q : String × String) : Bool :=
  decide (p.1 < q.1) || (decide (p.1 = q.1) && decide (p.2 ≤ q.2))

/-- Lexicographic comparison on string 4-tuples, the groupby key order for
`groupby(['Company', 'Industry', 'Location_HQ', 'Country'])`. -/
def tuple4Le (p q : String × String × String × String) : Bool :=
  decide (p.1 < q.1) ||
    (decide (p.1 = q.1) &&
      (decide (p.2.1 < q.2.1) ||
        (decide (p.2.1 = q.2.1) &&
          (decide (p.2.2.1 < q.2.2.1) ||
            (decide (p.2.2.1 = q.2.2.1) && decide (p.2.2.2 ≤ q.2.2.2))))))

/-- The summed `Laid_Off_Count` of the group of `df` with key `k`
(pandas group sums skip missing entries). -/
def sumBy {α : Type} [DecidableEq α] (key : Record → α) (df : List Record) (k : α) : ℚ :=
  (((df.filter (fun r => decide (key r = k))).filterMap (fun r => r.Laid_Off_Count))).sum

/-- `df.groupby(key)['Laid_Off_Count'].sum()` with the default `sort=True`:
one row per observed key, in ascending key order, carrying the group sum. -/
def groupbySum {α : Type} [DecidableEq α] (keyLe : α → α → Bool) (key : Record → α)
    (df : List Record) : List (α × ℚ) :=
  (isort keyLe (distinctKeys (df.map key))).map (fun k => (k, sumBy key df k))

/-- Ascending comparison of grouped rows by their summed value. -/
def valAsc {α : Type} (p q : α × ℚ) : Bool := decide (p.2 ≤ q.2)

/-- `sort_values(by summed value, ascending=False)`: pandas `nargsort`
computes the ascending permutation and reverses it, so the descending order
is the reversal of a stable ascending sort. -/
def sort_values_desc {α : Type} (l : List (α × ℚ)) : List (α × ℚ) :=
  (isort valAsc l).reverse

/-- Lines 53-59: group by `Country`, sum, sort descending, keep the top 5. -/
def top_countries (df : List Record) : List (String × ℚ) :=
  (sort_values_desc (groupbySum strLe (fun r => r.Country) df)).take 5

/-- Lines 75-78: group by `Country`, sum, sort descending (no truncation). -/
def country_layoffs (df : List Record) : List (String × ℚ) :=
  sort_values_desc (groupbySum strLe (fun r => r.Country) df)

/-- Line 47: `df[(df['Industry'] == industry_filter) & (df['Country'] == country_filter)]`. -/
def df_filtered (df : List Record) (industry country : String) : List Record :=
  df.filter (fun r => decide (r.Industry = industry) && decide (r.Country = country))

/-- Lines 151-152: the yearly time series of the filtered slice, grouped by
the year of `Date` (groupby sorts the years ascending). -/
def df_time_series (df : List Record) (industry country : String) : List (Nat × ℚ) :=
  groupbySum natLe (fun r => r.Date.year) (df_filtered df industry country)

/-- Line 172: `df_filtered = df[df['Date'].dt.year >= 2020]`. -/
def df_filtered2020 (df : List Record) : List Record :=
  df.filter (fun r => decide (2020 ≤ r.Date.year))

/-- Lines 175-182: group the records since 2020 by company, industry,
location and country, sum the layoffs, sort descending, keep the top 50. -/
def top_companies_base (df : List Record) : List ((String × String × String × String) × ℚ) :=
  (sort_values_desc (groupbySum tuple4Le
    (fun r => (r.Company, r.Industry, r.Location_HQ, r.Country)) (df_filtered2020 df))).take 50

/-- The denominator of line 185: the summed `Laid_Off_Count` over the
truncated top-50 rows. -/
def top50_total (df : List Record) : ℚ :=
  ((top_companies_base df).map (fun p => p.2)).sum

/-- Line 185: append `Percentage = Laid_Off_Count / sum-over-the-top-50 * 100`
to every retained row. -/
def top_companies_data (df : List Record) :
    List ((String × String × String × String) × ℚ × ℚ) :=
  (top_companies_base df).map (fun p => (p.1, p.2, p.2 / top50_total df * 100))

/-- Lines 237-241: records since 2020 of the selected industry, grouped by
company and industry, summed, sorted descending, top 10.  The Country
selection plays no part here: line 237 reads the `df_filtered` rebound at
line 172, which only restricts the year. -/
def top_companies_filtered (df : List Record) (industry : String) :
    List ((String × String) × ℚ) :=
  (sort_values_desc (groupbySum strPairLe (fun r => (r.Company, r.Industry))
    ((df_filtered2020 df).filter (fun r => decide (r.Industry = industry))))).take 10

/-- The error vocabulary of the specification's failure contract for the
View Builder. -/
inductive FilterError : Type where
  | InvalidFilter
deriving DecidableEq, Repr

/-- The yearly time-series query placed in an error-capable signature.  The
script validates nothing: line 44 only populates the UI selectbox, and the
filtering at line 47 and the aggregation at line 151 raise no exception for
any filter value, so every input is mapped to `Except.ok`. -/
def df_time_series_checked (df : List Record) (industry country : String) :
    Except FilterError (List (Nat × ℚ)) :=
  Except.ok (df_time_series df industry country)

/-- The action of `load_data` on a single row, with all three column means
taken over the raw input `raw`. -/
def loadFn (raw : List Record) (r : Record) : Record :=
  replaceCountry
    { r with
      Laid_Off_Count :=
        fillnaWith (colMean (raw.map (fun t => t.Laid_Off_Count))) r.Laid_Off_Count,
      Funds_Raised :=
        fillnaWith (colMean (raw.map (fun t => t.Funds_Raised))) r.Funds_Raised,
      Percentage :=
        fillnaWith (colMean (raw.map (fun t => t.Percentage))) r.Percentage,
      Date := to_datetime r.Date }

lemma load_data_eq (raw : List Record) : load_data raw = raw.map (loadFn raw) := by
  unfold load_data normalizeCountries parseDates fillPercentage fillFunds fillLaidOff loadFn
  simp only [List.map_map]
  rfl

lemma to_datetime_idem (x : DateVal) : to_datetime (to_datetime x) = to_datetime x := by
  cases x <;> rfl

lemma fillnaWith_some (m : Option ℚ) (v : ℚ) : fillnaWith m (some v) = some v := rfl

lemma fillnaWith_getD (m : ℚ) (x : Option ℚ) :
    fillnaWith (some m) x = some (x.getD m) := by
  cases x <;> rfl

lemma colMean_eq_none_iff (xs : List (Option ℚ)) :
    colMean xs = none ↔ ∀ x ∈ xs, x = none := by
  constructor
  · intro h x hx
    by_cases hnil : xs.filterMap id = []
    · simpa using List.filterMap_eq_nil_iff.mp hnil x hx
    · exact absurd h (by simp [colMean, hnil])
  · intro hall
    have hnil : xs.filterMap id = [] :=
      List.filterMap_eq_nil_iff.mpr (fun a ha => by simpa using hall a ha)
    simp [colMean, hnil]

lemma colMean_map_eq_some {proj : Record → Option ℚ} (raw : List Record)
    (h : raw.filterMap proj ≠ []) :
    colMean (raw.map proj) = some (meanOf (raw.filterMap proj)) := by
  unfold colMean meanOf
  have hfm : (raw.map proj).filterMap id = raw.filterMap proj := by
    rw [List.filterMap_map]
    rfl
  rw [hfm, if_neg h]

lemma loadFn_eq (raw : List Record) (r : Record) :
    loadFn raw r =
      { Company := r.Company, Industry := r.Industry,
        Country := if r.Country = "United States" then "United States of America" else r.Country,
        Location_HQ := r.Location_HQ, Stage := r.Stage,
        Date := to_datetime r.Date,
        Laid_Off_Count :=
          fillnaWith (colMean (raw.map (fun t => t.Laid_Off_Count))) r.Laid_Off_Count,
        Funds_Raised :=
          fillnaWith (colMean (raw.map (fun t => t.Funds_Raised))) r.Funds_Raised,
        Percentage :=
          fillnaWith (colMean (raw.map (fun t => t.Percentage))) r.Percentage } := by
  unfold loadFn replaceCountry
  by_cases h : r.Country = "United States" <;> simp [h]

lemma loadFn_L (raw : List Record) (r : Record) :
    (loadFn raw r).Laid_Off_Count =
      fillnaWith (colMean (raw.map (fun t => t.Laid_Off_Count))) r.Laid_Off_Count := by
  rw [loadFn_eq]

lemma loadFn_F (raw : List Record) (r : Record) :
    (loadFn raw r).Funds_Raised =
      fillnaWith (colMean (raw.map (fun t => t.Funds_Raised))) r.Funds_Raised := by
  rw [loadFn_eq]

lemma loadFn_P (raw : List Record) (r : Record) :
    (loadFn raw r).Percentage =
      fillnaWith (colMean (raw.map (fun t => t.Percentage))) r.Percentage := by
  rw [loadFn_eq]

lemma loadFn_Date (raw : List Record) (r : Record) :
    (loadFn raw r).Date = to_datetime r.Date := by
  rw [loadFn_eq]

lemma loadFn_country_ne (raw : List Record) (r : Record) :
    (loadFn raw r).Country ≠ "United States" := by
  rw [loadFn_eq]
  by_cases h : r.Country = "United States" <;> simp [h]

lemma mem_insertSorted {α : Type} (le : α → α → Bool) (x a : α) :
    ∀ l : List α, a ∈ insertSorted le x l ↔ a = x ∨ a ∈ l := by
  intro l
  induction l with
  | nil => simp [insertSorted]
  | cons y ys ih =>
    unfold insertSorted
    split
    · simp [List.mem_cons]
    · simp only [List.mem_cons, ih]
      tauto

lemma mem_isort {α : Type} (le : α → α → Bool) (a : α) :
    ∀ l : List α, a ∈ isort le l ↔ a ∈ l := by
  intro l
  induction l with
  | nil => simp [isort]
  | cons x xs ih =>
    unfold isort
    rw [mem_insertSorted]
    simp [ih]

lemma sublist_insertSorted {α : Type} (le : α → α → Bool) (x : α) :
    ∀ l : List α, l.Sublist (insertSorted le x l) := by
  intro l
  induction l with
  | nil => simp [insertSorted]
  | cons y ys ih =>
    unfold insertSorted
    split
    · exact (List.Sublist.refl (y :: ys)).cons x
    · exact ih.cons₂ y

lemma pair_sublist_insertSorted {α : Type} (le : α → α → Bool) {x b : α}
    (hxb : le x b = true) :
    ∀ l : List α, b ∈ l → [x, b].Sublist (insertSorted le x l) := by
  intro l
  induction l with
  | nil => simp
  | cons y ys ih =>
    intro hb
    unfold insertSorted
    split
    · exact (List.singleton_sublist.mpr hb).cons₂ x
    · rcases List.mem_cons.mp hb with rfl | hb2
      · rename_i hxy
        rw [hxb] at hxy
        exact absurd rfl hxy
      · exact (ih hb2).cons y

lemma pairwise_insertSorted {α : Type} (le : α → α → Bool)
    (htrans : ∀ p q r, le p q = true → le q r = true → le p r = true)
    (htot : ∀ p q, le p q = true ∨ le q p = true) (x : α) :
    ∀ l : List α, l.Pairwise (fun p q => le p q = true) →
      (insertSorted le x l).Pairwise (fun p q => le p q = true) := by
  intro l
  induction l with
  | nil =>
    intro _
    simp [insertSorted]
  | cons y ys ih =>
    intro hp
    rcases List.pairwise_cons.mp hp with ⟨hy, hys⟩
    unfold insertSorted
    split
    · rename_i hxy
      refine List.pairwise_cons.mpr ⟨?_, hp⟩
      intro z hz
      rcases List.mem_cons.mp hz with rfl | hz2
      · exact hxy
      · exact htrans x y z hxy (hy z hz2)
    · rename_i hxy
      have hyx : le y x = true := by
        rcases htot x y with h | h
        · exact absurd h hxy
        · exact h
      refine List.pairwise_cons.mpr ⟨?_, ih hys⟩
      intro z hz
      rcases (mem_insertSorted le x z ys).mp hz with rfl | hz2
      · exact hyx
      · exact hy z hz2

lemma pairwise_isort {α : Type} (le : α → α → Bool)
    (htrans : ∀ p q r, le p q = true → le q r = true → le p r = true)
    (htot : ∀ p q, le p q = true ∨ le q p = true) :
    ∀ l : List α, (isort le l).Pairwise (fun p q => le p q = true) := by
  intro l
  induction l with
  | nil => simp [isort]
  | cons x xs ih => exact pairwise_insertSorted le htrans htot x (isort le xs) ih

lemma pair_sublist_insertSorted_after {α : Type} (le : α → α → Bool)
    (htrans : ∀ p q r, le p q = true → le q r = true → le p r = true)
    {x a : α} (hxa : le x a = false) :
    ∀ l : List α, a ∈ l → l.Pairwise (fun p q => le p q = true) →
      [a, x].Sublist (insertSorted le x l) := by
  intro l
  induction l with
  | nil => simp
  | cons y ys ih =>
    intro ha hp
    rcases List.pairwise_cons.mp hp with ⟨hy, hys⟩
    unfold insertSorted
    split
    · rename_i hxy
      exfalso
      rcases List.mem_cons.mp ha with rfl | ha2
      · rw [hxa] at hxy
        cases hxy
      · have := htrans x y a hxy (hy a ha2)
        rw [hxa] at this
        cases this
    · rcases List.mem_cons.mp ha with rfl | ha2
      · exact (List.singleton_sublist.mpr
          ((mem_insertSorted le x x ys).mpr (Or.inl rfl))).cons₂ a
      · exact (ih ha2 hys).cons y

lemma pair_sublist_isort_of_mem {α : Type} (le : α → α → Bool)
    (htrans : ∀ p q r, le p q = true → le q r = true → le p r = true)
    (htot : ∀ p q, le p q = true ∨ le q p = true)
    {a b : α} (hab : le a b = true) (hba : le b a = false) :
    ∀ l : List α, a ∈ l → b ∈ l → [a, b].Sublist (isort le l) := by
  intro l
  induction l with
  | nil => simp
  | cons x xs ih =>
    intro ha hb
    unfold isort
    rcases List.mem_cons.mp ha with rfl | ha2
    · have hb2 : b ∈ xs := by
        rcases List.mem_cons.mp hb with rfl | hb2
        · rw [hab] at hba
          cases hba
        · exact hb2
      exact pair_sublist_insertSorted le hab (isort le xs) ((mem_isort le b xs).mpr hb2)
    · rcases List.mem_cons.mp hb with rfl | hb2
      · exact pair_sublist_insertSorted_after le htrans hba (isort le xs)
          ((mem_isort le a xs).mpr ha2) (pairwise_isort le htrans htot xs)
      · exact (ih ha2 hb2).trans (sublist_insertSorted le x (isort le xs))

lemma pair_sublist_isort_stable {α : Type} (le : α → α → Bool)
    {a b : α} (hab : le a b = true) :
    ∀ l : List α, [a, b].Sublist l → [a, b].Sublist (isort le l) := by
  intro l
  induction l with
  | nil =>
    intro h
    cases h
  | cons x xs ih =>
    intro h
    unfold isort
    cases h with
    | cons _ h2 => exact (ih h2).trans (sublist_insertSorted le x (isort le xs))
    | cons₂ _ h2 =>
      exact pair_sublist_insertSorted le hab (isort le xs)
        ((mem_isort le b xs).mpr (List.singleton_sublist.mp h2))

lemma mem_distinctKeysAux {α : Type} [DecidableEq α] (x : α) :
    ∀ (l seen : List α), x ∈ distinctKeysAux seen l ↔ x ∈ l ∧ x ∉ seen := by
  intro l
  induction l with
  | nil => simp [distinctKeysAux]
  | cons k ks ih =>
    intro seen
    unfold distinctKeysAux
    split
    · rename_i hk
      rw [ih]
      simp only [List.mem_cons]
      constructor
      · rintro ⟨h1, h2⟩
        exact ⟨Or.inr h1, h2⟩
      · rintro ⟨h1, h2⟩
        rcases h1 with rfl | h1
        · exact absurd hk h2
        · exact ⟨h1, h2⟩
    · rename_i hk
      simp only [List.mem_cons, ih]
      constructor
      · rintro (rfl | ⟨h1, h2⟩)
        · exact ⟨Or.inl rfl, hk⟩
        · exact ⟨Or.inr h1, fun hs => h2 (Or.inr hs)⟩
      · rintro ⟨rfl | h1, h2⟩
        · exact Or.inl rfl
        · by_cases hxk : x = k
          · exact Or.inl hxk
          · exact Or.inr ⟨h1, fun hs => by
              rcases hs with h | h
              · exact hxk h
              · exact h2 h⟩

lemma mem_distinctKeys {α : Type} [DecidableEq α] (x : α) (l : List α) :
    x ∈ distinctKeys l ↔ x ∈ l := by
  unfold distinctKeys
  rw [mem_distinctKeysAux]
  simp

lemma strLe_trans : ∀ p q r : String, strLe p q = true → strLe q r = true → strLe p r = true := by
  intro p q r hpq hqr
  simp only [strLe, decide_eq_true_eq] at *
  exact le_trans hpq hqr

lemma strLe_total : ∀ p q : String, strLe p q = true ∨ strLe q p = true := by
  intro p q
  simp only [strLe, decide_eq_true_eq]
  exact le_total p q

lemma column_fill_idem (raw : List Record) (proj : Record → Option ℚ)
    (hcomm : ∀ t, proj (loadFn raw t) = fillnaWith (colMean (raw.map proj)) (proj t))
    (r : Record) :
    fillnaWith (colMean ((raw.map (loadFn raw)).map proj)) (proj (loadFn raw r)) =
      proj (loadFn raw r) := by
  cases hx : proj (loadFn raw r) with
  | some v => rfl
  | none =>
    have hr0 := hcomm r
    rw [hx] at hr0
    have hm : colMean (raw.map proj) = none := by
      cases hpr : proj r with
      | some v =>
        rw [hpr] at hr0
        exact absurd hr0 (by simp [fillnaWith])
      | none =>
        rw [hpr] at hr0
        exact hr0.symm
    have hall : ∀ x ∈ raw.map proj, x = none := (colMean_eq_none_iff _).mp hm
    have hall2 : ∀ x ∈ (raw.map (loadFn raw)).map proj, x = none := by
      intro x hx2
      rw [List.map_map] at hx2
      rcases List.mem_map.mp hx2 with ⟨t, ht, rfl⟩
      show proj (loadFn raw t) = none
      rw [hcomm t, hm]
      have hpt : proj t = none := hall _ (List.mem_map_of_mem proj ht)
      rw [hpt]
      rfl
    rw [(colMean_eq_none_iff _).mpr hall2]
    rfl

/-- C7: the Loader is deterministic — on a fixed raw input a second call
returns the same Canonical Dataset — and moreover idempotent as a dataset
transformation: re-cleaning an already-cleaned dataset changes nothing
(the filled columns contain no further missing entries, the dates are
already structured, and no country value equal to "United States" remains). -/
theorem loader_deterministic_idempotent (raw : List Record) :
    load_data raw = load_data raw ∧ load_data (load_data raw) = load_data raw := by
  refine ⟨rfl, ?_⟩
  rw [load_data_eq (load_data raw)]
  have key : ∀ s ∈ load_data raw, loadFn (load_data raw) s = s := by
    intro s hs
    rw [load_data_eq raw] at hs
    rcases List.mem_map.mp hs with ⟨r, hr, rfl⟩
    rw [load_data_eq raw]
    rw [loadFn_eq]
    have hC : (if (loadFn raw r).Country = "United States" then "United States of America"
        else (loadFn raw r).Country) = (loadFn raw r).Country :=
      if_neg (loadFn_country_ne raw r)
    have hD : to_datetime (loadFn raw r).Date = (loadFn raw r).Date := by
      rw [loadFn_Date]
      exact to_datetime_idem r.Date
    have h1 := column_fill_idem raw (fun t => t.Laid_Off_Count) (fun t => loadFn_L raw t) r
    have h2 := column_fill_idem raw (fun t => t.Funds_Raised) (fun t => loadFn_F raw t) r
    have h3 := column_fill_idem raw (fun t => t.Percentage) (fun t => loadFn_P raw t) r
    rw [hC, hD, h1, h2, h3]
  calc (load_data raw).map (loadFn (load_data raw))
      = (load_data raw).map id := List.map_congr_left key
    _ = load_data raw := List.map_id _

/-- C8: the Canonical Dataset is observationally immutable after load: the
only later write to it in the script, the re-parse of the `Date` column at
lines 171-172, is the identity on the loaded dataset (its dates are already
structured), so every later query sees exactly the dataset the Loader
returned — and every View Builder query is a pure function of it. -/
theorem canonical_dataset_never_mutated (raw : List Record) :
    parseDates (load_data raw) = load_data raw := by
  unfold parseDates
  have key : ∀ s ∈ load_data raw, { s with Date := to_datetime s.Date } = s := by
    intro s hs
    rw [load_data_eq raw] at hs
    rcases List.mem_map.mp hs with ⟨r, hr, rfl⟩
    rw [loadFn_Date, to_datetime_idem, ← loadFn_Date raw r]
  calc (load_data raw).map (fun s => { s with Date := to_datetime s.Date })
      = (load_data raw).map id := List.map_congr_left key
    _ = load_data raw := List.map_id _

lemma column_all_missing (raw : List Record) (proj : Record → Option ℚ)
    (hcomm : ∀ t, proj (loadFn raw t) = fillnaWith (colMean (raw.map proj)) (proj t))
    (h : ∀ r ∈ raw, proj r = none) :
    colMean (raw.map proj) = none ∧ ∀ s ∈ load_data raw, proj s = none := by
  have hm : colMean (raw.map proj) = none := by
    refine (colMean_eq_none_iff _).mpr ?_
    intro x hx
    rcases List.mem_map.mp hx with ⟨t, ht, rfl⟩
    exact h t ht
  refine ⟨hm, ?_⟩
  intro s hs
  rw [load_data_eq] at hs
  rcases List.mem_map.mp hs with ⟨t, ht, rfl⟩
  rw [hcomm t, hm, h t ht]
  rfl

/-- C1: after `load_data`, the three numeric columns contain no missing
values; every cell that was absent in the raw input holds the arithmetic
mean of the non-missing raw values of its column over the entire unfiltered
dataset, and every present raw value is returned unchanged.  (The means
exist by the precondition, made explicit in C9, that each column has at
least one non-missing raw value.) -/
theorem mean_fill_no_missing (raw : List Record)
    (hL : raw.filterMap (fun t => t.Laid_Off_Count) ≠ [])
    (hF : raw.filterMap (fun t => t.Funds_Raised) ≠ [])
    (hP : raw.filterMap (fun t => t.Percentage) ≠ []) :
    (load_data raw).length = raw.length ∧
    ∀ (i : Nat) (r : Record), raw[i]? = some r →
      ∃ s : Record, (load_data raw)[i]? = some s ∧
        s.Laid_Off_Count =
          some (r.Laid_Off_Count.getD (meanOf (raw.filterMap (fun t => t.Laid_Off_Count)))) ∧
        s.Funds_Raised =
          some (r.Funds_Raised.getD (meanOf (raw.filterMap (fun t => t.Funds_Raised)))) ∧
        s.Percentage =
          some (r.Percentage.getD (meanOf (raw.filterMap (fun t => t.Percentage)))) := by
  constructor
  · rw [load_data_eq]
    simp
  · intro i r hir
    refine ⟨loadFn raw r, ?_, ?_, ?_, ?_⟩
    · rw [load_data_eq, List.getElem?_map, hir]
      rfl
    · rw [loadFn_L, colMean_map_eq_some raw hL, fillnaWith_getD]
    · rw [loadFn_F, colMean_map_eq_some raw hF, fillnaWith_getD]
    · rw [loadFn_P, colMean_map_eq_some raw hP, fillnaWith_getD]

/-- A raw row with a missing Percentage and a Country spelled "United States". -/
def exRec1 : Record :=
  { Company := "alpha", Industry := "Tech", Country := "United States",
    Location_HQ := "SF", Stage := "Seed", Date := DateVal.raw "2021-03-05",
    Laid_Off_Count := some 2, Funds_Raised := some 1, Percentage := none }

/-- A raw row with a missing Laid_Off_Count. -/
def exRec2 : Record :=
  { Company := "beta", Industry := "Tech", Country := "India",
    Location_HQ := "Pune", Stage := "Post-IPO", Date := DateVal.raw "2022-01-02",
    Laid_Off_Count := none, Funds_Raised := some 3, Percentage := some 4 }

/-- A raw row with a missing Funds_Raised. -/
def exRec3 : Record :=
  { Company := "gamma", Industry := "Retail", Country := "Germany",
    Location_HQ := "Berlin", Stage := "Acquired", Date := DateVal.raw "2023-11-30",
    Laid_Off_Count := some 4, Funds_Raised := none, Percentage := some 2 }

/-- A three-row raw dataset with one missing entry in each numeric column. -/
def exC1 : List Record := [exRec1, exRec2, exRec3]

theorem mean_fill_no_missing_witness :
    exC1.filterMap (fun t => t.Laid_Off_Count) ≠ [] ∧
    ∃ s : Record, (load_data exC1)[1]? = some s ∧
      s.Laid_Off_Count =
        some (exRec2.Laid_Off_Count.getD (meanOf (exC1.filterMap (fun t => t.Laid_Off_Count)))) ∧
      s.Funds_Raised =
        some (exRec2.Funds_Raised.getD (meanOf (exC1.filterMap (fun t => t.Funds_Raised)))) ∧
      s.Percentage =
        some (exRec2.Percentage.getD (meanOf (exC1.filterMap (fun t => t.Percentage)))) :=
  ⟨by decide,
    (mean_fill_no_missing exC1 (by decide) (by decide) (by decide)).2 1 exRec2 (by decide)⟩

/-- C2: the country-normalization step of `load_data` rewrites exactly the
Country cells equal to the literal string "United States" to
"United States of America"; every other Country value, every other field of
every record, and the record count are unchanged by this step. -/
theorem country_normalization_exact (df : List Record) :
    (normalizeCountries df).length = df.length ∧
    ∀ (i : Nat) (r : Record), df[i]? = some r →
      ∃ s : Record, (normalizeCountries df)[i]? = some s ∧
        s.Country = (if r.Country = "United States" then "United States of America"
          else r.Country) ∧
        s.Company = r.Company ∧ s.Industry = r.Industry ∧
        s.Location_HQ = r.Location_HQ ∧ s.Stage = r.Stage ∧ s.Date = r.Date ∧
        s.Laid_Off_Count = r.Laid_Off_Count ∧ s.Funds_Raised = r.Funds_Raised ∧
        s.Percentage = r.Percentage := by
  constructor
  · simp [normalizeCountries]
  · intro i r hir
    refine ⟨replaceCountry r, ?_, ?_⟩
    · unfold normalizeCountries
      rw [List.getElem?_map, hir]
      rfl
    · unfold replaceCountry
      by_cases h : r.Country = "United States" <;> simp [h]

/-- A two-row dataset exercising both branches of the country rewrite. -/
def exC2 : List Record := [exRec1, exRec2]

theorem country_normalization_exact_witness :
    ∃ s : Record, (normalizeCountries exC2)[0]? = some s ∧
      s.Country = (if exRec1.Country = "United States" then "United States of America"
        else exRec1.Country) ∧
      s.Company = exRec1.Company ∧ s.Industry = exRec1.Industry ∧
      s.Location_HQ = exRec1.Location_HQ ∧ s.Stage = exRec1.Stage ∧ s.Date = exRec1.Date ∧
      s.Laid_Off_Count = exRec1.Laid_Off_Count ∧ s.Funds_Raised = exRec1.Funds_Raised ∧
      s.Percentage = exRec1.Percentage :=
  (country_normalization_exact exC2).2 0 exRec1 (by decide)

/-- C9: the mean-fill only removes missing values from a column that has at
least one non-missing raw entry.  If a numeric column is entirely missing,
its mean is undefined (`none`), `fillna` leaves the column untouched, and
the returned dataset still has every value of that column missing. -/
theorem all_missing_column_stays_missing (raw : List Record) :
    ((∀ r ∈ raw, r.Laid_Off_Count = none) →
      colMean (raw.map (fun t => t.Laid_Off_Count)) = none ∧
      ∀ s ∈ load_data raw, s.Laid_Off_Count = none) ∧
    ((∀ r ∈ raw, r.Funds_Raised = none) →
      colMean (raw.map (fun t => t.Funds_Raised)) = none ∧
      ∀ s ∈ load_data raw, s.Funds_Raised = none) ∧
    ((∀ r ∈ raw, r.Percentage = none) →
      colMean (raw.map (fun t => t.Percentage)) = none ∧
      ∀ s ∈ load_data raw, s.Percentage = none) :=
  ⟨fun h => column_all_missing raw _ (fun t => loadFn_L raw t) h,
   fun h => column_all_missing raw _ (fun t => loadFn_F raw t) h,
   fun h => column_all_missing raw _ (fun t => loadFn_P raw t) h⟩

/-- A raw row with every numeric column missing. -/
def exRec9 : Record :=
  { Company := "delta", Industry := "Media", Country := "India",
    Location_HQ := "Mumbai", Stage := "Seed", Date := DateVal.raw "2020-06-15",
    Laid_Off_Count := none, Funds_Raised := none, Percentage := none }

/-- A one-row raw dataset whose numeric columns are entirely missing. -/
def exC9 : List Record := [exRec9]

theorem all_missing_column_stays_missing_witness :
    colMean (exC9.map (fun t => t.Laid_Off_Count)) = none ∧
    ∃ s ∈ load_data exC9, s.Laid_Off_Count = none := by
  have h := (all_missing_column_stays_missing exC9).1 (by decide)
  have hmem : loadFn exC9 exRec9 ∈ load_data exC9 := by
    rw [load_data_eq]
    exact List.mem_map_of_mem _ (List.mem_cons_self _ _)
  exact ⟨h.1, loadFn exC9 exRec9, hmem, h.2 _ hmem⟩

/-- C3 (amended): in the grouped-and-descending-sorted country views, ties in
the summed Laid_Off_Count appear in descending alphabetical order of the
Country key, regardless of first appearance in the dataset: groupby emits
the keys in ascending alphabetical order and `sort_values(ascending=False)`
reverses a stable ascending sort, so for two countries with equal sums the
alphabetically later one precedes the other in the sorted view. -/
theorem equal_sum_countries_reverse_alphabetical (df : List Record) (a b : String) (s : ℚ)
    (ha : a ∈ df.map (fun r => r.Country)) (hb : b ∈ df.map (fun r => r.Country))
    (hsa : sumBy (fun r => r.Country) df a = s) (hsb : sumBy (fun r => r.Country) df b = s)
    (hab : a < b) :
    [(b, s), (a, s)].Sublist (country_layoffs df) := by
  have hA : a ∈ distinctKeys (df.map fun r => r.Country) := (mem_distinctKeys _ _).mpr ha
  have hB : b ∈ distinctKeys (df.map fun r => r.Country) := (mem_distinctKeys _ _).mpr hb
  have hle : strLe a b = true := by
    simp only [strLe, decide_eq_true_eq]
    exact le_of_lt hab
  have hnle : strLe b a = false := by
    simp only [strLe, decide_eq_false_iff_not]
    exact not_le.mpr hab
  have h1 : [a, b].Sublist (isort strLe (distinctKeys (df.map fun r => r.Country))) :=
    pair_sublist_isort_of_mem strLe strLe_trans strLe_total hle hnle _ hA hB
  have h2 : [(a, s), (b, s)].Sublist (groupbySum strLe (fun r => r.Country) df) := by
    have h2a := h1.map (fun k => (k, sumBy (fun r => r.Country) df k))
    simpa [groupbySum, hsa, hsb] using h2a
  have h3 : [(a, s), (b, s)].Sublist (isort valAsc (groupbySum strLe (fun r => r.Country) df)) :=
    pair_sublist_isort_stable valAsc (by simp [valAsc]) _ h2
  have h4 := h3.reverse
  simpa [country_layoffs, sort_values_desc] using h4

lemma sum_map_div_mul {β : Type} (l : List (β × ℚ)) (T : ℚ) :
    (l.map (fun p => p.2 / T * 100)).sum = (l.map (fun p => p.2)).sum / T * 100 := by
  induction l with
  | nil => simp
  | cons x xs ih =>
    simp only [List.map_cons, List.sum_cons, ih, add_div, add_mul]

/-- C4 (amended): every row of the top-50 view carries
`Percentage = Laid_Off_Count / (sum over the truncated top-50 rows) * 100` —
the truncation happens before the percentage computation — and whenever that
truncated-set total is nonzero the Percentage column of the returned view
sums to exactly 100.  (When the total is zero the percentages are degenerate
and do not sum to 100; see the counterexample.) -/
theorem top50_percentage_truncated_total (df : List Record) :
    (∀ p ∈ top_companies_data df, p.2.2 = p.2.1 / top50_total df * 100) ∧
    (top50_total df ≠ 0 →
      ((top_companies_data df).map (fun p => p.2.2)).sum = 100) := by
  constructor
  · intro p hp
    rcases List.mem_map.mp hp with ⟨q, hq, rfl⟩
    rfl
  · intro h
    unfold top_companies_data
    rw [List.map_map]
    have hcomp : ((top_companies_base df).map
        ((fun p : (String × String × String × String) × ℚ × ℚ => p.2.2) ∘
          (fun p => (p.1, p.2, p.2 / top50_total df * 100)))) =
        ((top_companies_base df).map (fun p => p.2 / top50_total df * 100)) := rfl
    rw [hcomp, sum_map_div_mul]
    rw [show ((top_companies_base df).map (fun p => p.2)).sum = top50_total df from rfl]
    rw [div_self h, one_mul]

/-- C5 (amended): no filter value makes the yearly time-series query fail.
For every dataset and every Industry/Country selection — inside or outside
the declared domain — the query returns an ordinary (possibly empty) table
and never an `InvalidFilter` error: the script performs no validation of
filter values. -/
theorem filter_never_fails (df : List Record) (industry country : String) :
    ∃ t, df_time_series_checked df industry country = Except.ok t :=
  ⟨df_time_series df industry country, rfl⟩

/-- C6 (amended): whenever the Industry+Country selection matches no record
the yearly time-series view is a zero-row table; the top-10-companies view
ignores the Country selection — it reads the year-filtered frame rebound at
line 172 — and is a zero-row table exactly when the selected industry has
no record dated 2020 or later; neither can raise an error (both are total
functions of the dataset and the selection). -/
theorem empty_slice_views_empty (df : List Record) (industry country : String) :
    (df_filtered df industry country = [] → df_time_series df industry country = []) ∧
    (top_companies_filtered df industry = [] ↔
      (df_filtered2020 df).filter (fun r => decide (r.Industry = industry)) = []) := by
  constructor
  · intro h1
    unfold df_time_series
    rw [h1]
    rfl
  · constructor
    · intro h
      by_contra hne
      obtain ⟨r, hr⟩ := List.exists_mem_of_ne_nil _ hne
      have hm1 : (r.Company, r.Industry) ∈
          distinctKeys (((df_filtered2020 df).filter
            (fun r => decide (r.Industry = industry))).map (fun t => (t.Company, t.Industry))) :=
        (mem_distinctKeys _ _).mpr (List.mem_map_of_mem _ hr)
      have hm2 := (mem_isort strPairLe _ _).mpr hm1
      have hm3 : ((r.Company, r.Industry),
            sumBy (fun t => (t.Company, t.Industry))
              ((df_filtered2020 df).filter (fun r => decide (r.Industry = industry)))
              (r.Company, r.Industry)) ∈
          groupbySum strPairLe (fun t => (t.Company, t.Industry))
            ((df_filtered2020 df).filter (fun r => decide (r.Industry = industry))) := by
        unfold groupbySum
        exact List.mem_map_of_mem _ hm2
      have h5 : isort valAsc (groupbySum strPairLe (fun t => (t.Company, t.Industry))
          ((df_filtered2020 df).filter (fun r => decide (r.Industry = industry)))) ≠ [] :=
        List.ne_nil_of_mem ((mem_isort valAsc _ _).mpr hm3)
      cases hrev : (isort valAsc (groupbySum strPairLe (fun t => (t.Company, t.Industry))
          ((df_filtered2020 df).filter (fun r => decide (r.Industry = industry))))).reverse with
      | nil => exact h5 (List.reverse_eq_nil_iff.mp hrev)
      | cons y ys =>
        unfold top_companies_filtered sort_values_desc at h
        rw [hrev] at h
        simp at h
    · intro h2
      unfold top_companies_filtered
      rw [h2]
      rfl

/-- C10: the top-5-countries view is exactly the first five rows of the
all-countries-by-layoffs view: both group by Country, sum Laid_Off_Count
and sort descending by the same rule, and the top-5 view truncates that
common pipeline to its first five rows. -/
theorem top5_equals_take5_of_full_view (df : List Record) :
    top_countries df = (country_layoffs df).take 5 := rfl

/-- A canonical-form row (structured date, present numeric cells) used by
the concrete view examples. -/
def cRec (co ind ctry : String) (y : Nat) (c : Option ℚ) : Record :=
  { Company := co, Industry := ind, Country := ctry, Location_HQ := "HQ",
    Stage := "Seed", Date := DateVal.parsed y 1 1,
    Laid_Off_Count := c, Funds_Raised := some 1, Percentage := some 1 }

/-- Two countries with equal summed layoffs; "A" appears first in the data
but is alphabetically earlier. -/
def exC3 : List Record := [cRec "c1" "Tech" "A" 2021 (some 5), cRec "c2" "Tech" "B" 2021 (some 5)]

lemma strAB : ("A" : String) < "B" := String.lt_iff_toList_lt.mpr (by decide)

/-- C3 is false as stated: in `exC3` the country "A" appears before "B" and
the two have equal summed Laid_Off_Count, so a first-appearance-preserving
(stable) tie-break would have to list "A" before "B"; the code's sorted
view lists "B" first. -/
theorem tie_break_counterexample :
    (exC3.map (fun r => r.Country)).indexOf "A" < (exC3.map (fun r => r.Country)).indexOf "B" ∧
    sumBy (fun r => r.Country) exC3 "A" = sumBy (fun r => r.Country) exC3 "B" ∧
    (top_countries exC3).map Prod.fst ≠ ["A", "B"] ∧
    (top_countries exC3).map Prod.fst = ["B", "A"] := by
  have hAB : strLe "A" "B" = true := by
    simp only [strLe, decide_eq_true_eq]
    exact le_of_lt strAB
  have hBA : strLe "B" "A" = false := by
    simp only [strLe, decide_eq_false_iff_not]
    exact not_le.mpr strAB
  have hmap : (top_countries exC3).map Prod.fst = ["B", "A"] := by
    simp [top_countries, sort_values_desc, groupbySum, distinctKeys, distinctKeysAux,
      isort, insertSorted, exC3, cRec, sumBy, valAsc, hAB, hBA]
  refine ⟨by decide, ?_, ?_, hmap⟩
  · simp [sumBy, exC3, cRec]
  · rw [hmap]
    decide

theorem tie_break_amended_witness :
    ("A" : String) < "B" ∧
    [("B", (5 : ℚ)), ("A", 5)].Sublist (country_layoffs exC3) :=
  ⟨strAB,
    equal_sum_countries_reverse_alphabetical exC3 "A" "B" 5 (by decide) (by decide)
      (by simp [sumBy, exC3, cRec]) (by simp [sumBy, exC3, cRec]) strAB⟩

/-- A one-company dataset since 2020 with a positive layoff count. -/
def exC4 : List Record := [cRec "copper" "Tech" "A" 2021 (some 4)]

/-- A one-company dataset since 2020 whose only layoff count is zero. -/
def exC4z : List Record := [cRec "zinc" "Tech" "A" 2021 (some 0)]

/-- C4 is false as stated for a non-empty result whose truncated-set total
is zero: the single retained row has Laid_Off_Count 0, its Percentage is
degenerate (0/0, NaN in pandas, 0 in the model), and the Percentage column
of the non-empty result does not sum to 100. -/
theorem top50_percentage_zero_total_counterexample :
    top_companies_data exC4z ≠ [] ∧
    ((top_companies_data exC4z).map (fun p => p.2.2)).sum ≠ 100 := by
  have hz : ((top_companies_data exC4z).map (fun p => p.2.2)).sum = 0 := by
    simp [top_companies_data, top_companies_base, top50_total, df_filtered2020, groupbySum,
      distinctKeys, distinctKeysAux, isort, insertSorted, sort_values_desc, exC4z, cRec,
      sumBy, DateVal.year]
  constructor
  · simp [top_companies_data, top_companies_base, df_filtered2020, groupbySum, distinctKeys,
      distinctKeysAux, isort, insertSorted, sort_values_desc, exC4z, cRec, sumBy, DateVal.year]
  · rw [hz]
    norm_num

theorem top50_percentage_truncated_total_witness :
    top50_total exC4 ≠ 0 ∧ ((top_companies_data exC4).map (fun p => p.2.2)).sum = 100 := by
  have hT : top50_total exC4 = 4 := by
    simp [top50_total, top_companies_base, df_filtered2020, groupbySum, distinctKeys,
      distinctKeysAux, isort, insertSorted, sort_values_desc, exC4, cRec, sumBy, DateVal.year]
  have hne : top50_total exC4 ≠ 0 := by
    rw [hT]
    norm_num
  exact ⟨hne, (top50_percentage_truncated_total exC4).2 hne⟩

/-- A dataset whose only record sits outside the declared Country domain. -/
def exC5 : List Record := [cRec "saxony" "Tech" "Germany" 2021 (some 5)]

/-- C5 is false as stated: the Country value "Germany" lies outside the
declared domain, yet the query does not fail with InvalidFilter — it
returns an ordinary table (here the aggregation of the matching records). -/
theorem invalid_filter_counterexample :
    "Germany" ∉ country_options ∧
    df_time_series_checked exC5 "Tech" "Germany" = Except.ok [(2021, 5)] ∧
    df_time_series_checked exC5 "Tech" "Germany" ≠ Except.error FilterError.InvalidFilter := by
  refine ⟨by decide, ?_, ?_⟩
  · simp [df_time_series_checked, df_time_series, df_filtered, groupbySum, distinctKeys,
      distinctKeysAux, isort, insertSorted, sumBy, exC5, cRec, DateVal.year]
  · simp [df_time_series_checked]

/-- A record of the selected industry, dated 2021, in a country that is not
the selected one. -/
def exC6 : List Record := [cRec "bavaria" "Tech" "Germany" 2021 (some 5)]

/-- C6 is false as stated: the in-domain selection (Tech, India) matches no
record and the yearly time-series view is indeed empty, but the
top-10-companies-within-industry view — which only filters by Industry and
year, not by the Country selection — is non-empty. -/
theorem filtered_views_empty_counterexample :
    "India" ∈ country_options ∧
    df_filtered exC6 "Tech" "India" = [] ∧
    df_time_series exC6 "Tech" "India" = [] ∧
    top_companies_filtered exC6 "Tech" ≠ [] := by
  refine ⟨by decide, by decide, by decide, ?_⟩
  simp [top_companies_filtered, df_filtered2020, groupbySum, distinctKeys, distinctKeysAux,
    isort, insertSorted, sort_values_desc, sumBy, exC6, cRec, DateVal.year, strPairLe]

/-- A dataset with no record of the queried country and none dated 2020 or
later. -/
def exW6 : List Record := [cRec "mills" "Retail" "India" 2019 (some 3)]

theorem empty_slice_views_empty_witness :
    df_time_series exW6 "Retail" "United States of America" = [] ∧
    top_companies_filtered exW6 "Retail" = [] :=
  ⟨(empty_slice_views_empty exW6 "Retail" "United States of America").1 (by decide),
   (empty_slice_views_empty exW6 "Retail" "United States of America").2.mpr (by decide)⟩
